import Mathlib

/-!
Verification of the template and response-contract layer of the Prompt Factory
("Orion") front-end: placeholder detection and substitution, the JSON response
sanitizer, the error classifier, the history store, and the variable-map sync.

The definitions below are shallow embeddings of the TypeScript source:
JavaScript strings are modelled as Lean `String`/`List Char`, `JSON.parse` as a
fuel-based recursive-descent parser over the JSON grammar (numbers are kept as
their literal tokens; JavaScript would convert them to doubles), thrown
exceptions as `Except`/explicit result values, and the relevant pieces of React
state as explicit state-transition functions.
-/

set_option maxRecDepth 10000

namespace PromptFactory

/-- The literal character `U+007B` (left curly brace). -/
def lbrace : Char := Char.ofNat 123

/-- The literal character `U+007D` (right curly brace). -/
def rbrace : Char := Char.ofNat 125

/-- Boolean prefix test on character lists (componentwise equality). -/
def listPrefixB : List Char → List Char → Bool
  | [], _ => true
  | _ :: _, [] => false
  | a :: as, b :: bs => a == b && listPrefixB as bs

/-- Boolean substring test: `pat` occurs contiguously inside the list.
Models JavaScript `String.prototype.includes`. -/
def substrB (pat : List Char) : List Char → Bool
  | [] => pat.isEmpty
  | c :: rest => listPrefixB pat (c :: rest) || substrB pat rest

/-- `String.prototype.includes` on Lean strings. -/
def includesStr (s pat : String) : Bool := substrB pat.data s.data

/-- ASCII lower-casing of a string; models `String.prototype.toLowerCase`
(which agrees with this on ASCII text). -/
def toLowerStr (s : String) : String := String.mk (s.data.map Char.toLower)

/-- The characters JavaScript `trim` removes, restricted to the ASCII range. -/
def jsTrimWs (c : Char) : Bool :=
  c == ' ' || c == '\t' || c == '\n' || c == '\r' || c == Char.ofNat 11 || c == Char.ofNat 12

/-- `String.prototype.trim`: drop leading and trailing whitespace. -/
def trimStr (s : String) : String :=
  String.mk (((s.data.dropWhile jsTrimWs).reverse.dropWhile jsTrimWs).reverse)

/-- One global-replace pass: at each position, if `pat` starts there, emit
`repl` and skip the match, else keep the character.  Models
`String.prototype.replace` with a global literal pattern (the replacement is
inserted verbatim; no `$`-pattern in this code base uses the special forms).
The fuel is the length of the input, enough since `pat` is nonempty here. -/
def replaceAllAux (pat repl : List Char) : Nat → List Char → List Char
  | 0, cs => cs
  | _ + 1, [] => []
  | fuel + 1, c :: cs =>
    if listPrefixB pat (c :: cs) then
      repl ++ replaceAllAux pat repl fuel (List.drop pat.length (c :: cs))
    else
      c :: replaceAllAux pat repl fuel cs

/-- `text.replace(/pat/g, repl)` for a literal pattern. -/
def replaceAllStr (text pat repl : String) : String :=
  String.mk (replaceAllAux pat.data repl.data text.data.length text.data)

/-- Everything before the first occurrence of `c` (whole string if absent). -/
def beforeCharStr (c : Char) (s : String) : String :=
  String.mk (s.data.takeWhile (fun x => x != c))

/-- Everything after the first occurrence of `c` (empty if absent). -/
def afterCharStr (c : Char) (s : String) : String :=
  String.mk ((s.data.dropWhile (fun x => x != c)).drop 1)

/-- `s.split("|")[1]`: the segment between the first and second pipe. -/
def secondPipeSegment (s : String) : String :=
  beforeCharStr '|' (afterCharStr '|' s)

/-! ## JSON values and `JSON.parse` -/

/-- Parsed JSON values.  Numbers are kept as their literal source tokens
(JavaScript converts them to IEEE doubles; no claim depends on numeric
coercion).  Objects keep their fields in source order; the inputs of interest
have no duplicate keys (JavaScript would keep the last occurrence). -/
inductive Json where
  | null : Json
  | bool (b : Bool) : Json
  | num (tok : String) : Json
  | str (s : String) : Json
  | arr (elems : List Json) : Json
  | obj (fields : List (String × Json)) : Json

/-- JSON insignificant whitespace: space, tab, line feed, carriage return. -/
def jsonWs (c : Char) : Bool :=
  c == ' ' || c == '\t' || c == '\n' || c == '\r'

/-- Value of a hexadecimal digit. -/
def hexVal (c : Char) : Option Nat :=
  if '0' ≤ c ∧ c ≤ '9' then some (c.toNat - '0'.toNat)
  else if 'a' ≤ c ∧ c ≤ 'f' then some (c.toNat - 'a'.toNat + 10)
  else if 'A' ≤ c ∧ c ≤ 'F' then some (c.toNat - 'A'.toNat + 10)
  else none

/-- Body of a JSON string literal after the opening quote: returns the decoded
characters and the remainder after the closing quote.  Handles the JSON escape
sequences; unescaped control characters are rejected as in the grammar. -/
def parseStringBody : Nat → List Char → Option (List Char × List Char)
  | 0, _ => none
  | _ + 1, [] => none
  | fuel + 1, c :: rest =>
    if c = '"' then some ([], rest)
    else if c = '\\' then
      match rest with
      | [] => none
      | e :: rest2 =>
        let dec : Option (Char × List Char) :=
          if e = '"' then some ('"', rest2)
          else if e = '\\' then some ('\\', rest2)
          else if e = '/' then some ('/', rest2)
          else if e = 'b' then some (Char.ofNat 8, rest2)
          else if e = 'f' then some (Char.ofNat 12, rest2)
          else if e = 'n' then some ('\n', rest2)
          else if e = 'r' then some (Char.ofNat 13, rest2)
          else if e = 't' then some ('\t', rest2)
          else if e = 'u' then
            match rest2 with
            | h1 :: h2 :: h3 :: h4 :: rest3 =>
              match hexVal h1, hexVal h2, hexVal h3, hexVal h4 with
              | some a, some b, some c2, some d =>
                some (Char.ofNat (((a * 16 + b) * 16 + c2) * 16 + d), rest3)
              | _, _, _, _ => none
            | _ => none
          else none
        match dec with
        | some (ch, rest3) =>
          match parseStringBody fuel rest3 with
          | some (body, r) => some (ch :: body, r)
          | none => none
        | none => none
    else if c.toNat < 32 then none
    else
      match parseStringBody fuel rest with
      | some (body, r) => some (c :: body, r)
      | none => none

/-- Optional JSON fraction part `.digits`; returns its literal characters. -/
def parseFracPart : List Char → Option (List Char × List Char)
  | '.' :: rest =>
    let ds := rest.takeWhile Char.isDigit
    if ds.isEmpty then none else some ('.' :: ds, rest.dropWhile Char.isDigit)
  | cs => some ([], cs)

/-- Optional JSON exponent part `e[+-]digits`; returns its literal characters. -/
def parseExpPart : List Char → Option (List Char × List Char)
  | c :: rest =>
    if c = 'e' ∨ c = 'E' then
      let sr : List Char × List Char :=
        match rest with
        | '+' :: r => (['+'], r)
        | '-' :: r => (['-'], r)
        | _ => ([], rest)
      let ds := sr.2.takeWhile Char.isDigit
      if ds.isEmpty then none
      else some (c :: sr.1 ++ ds, sr.2.dropWhile Char.isDigit)
    else some ([], c :: rest)
  | [] => some ([], [])

/-- JSON number token: `-? (0 | [1-9][0-9]*) frac? exp?`; leading zeros are
rejected as in the grammar. -/
def parseNumber (cs : List Char) : Option (List Char × List Char) :=
  let sr : List Char × List Char :=
    match cs with
    | '-' :: rest => (['-'], rest)
    | _ => ([], cs)
  let intPart := sr.2.takeWhile Char.isDigit
  let afterInt := sr.2.dropWhile Char.isDigit
  if intPart.isEmpty then none
  else if intPart.length > 1 ∧ intPart.headD '0' = '0' then none
  else
    match parseFracPart afterInt with
    | none => none
    | some (frac, afterFrac) =>
      match parseExpPart afterFrac with
      | none => none
      | some (ex, rest) => some (sr.1 ++ intPart ++ frac ++ ex, rest)

mutual

/-- One JSON value (leading whitespace allowed); returns it and the rest. -/
def parseValue : Nat → List Char → Option (Json × List Char)
  | 0, _ => none
  | fuel + 1, cs =>
    let cs := cs.dropWhile jsonWs
    match cs with
    | [] => none
    | c :: rest =>
      if c = '"' then
        match parseStringBody (rest.length + 1) rest with
        | some (body, r) => some (.str (String.mk body), r)
        | none => none
      else if c = lbrace then parseObjRest fuel rest
      else if c = '[' then parseArrRest fuel rest
      else if listPrefixB ['n', 'u', 'l', 'l'] cs then some (.null, cs.drop 4)
      else if listPrefixB ['t', 'r', 'u', 'e'] cs then some (.bool true, cs.drop 4)
      else if listPrefixB ['f', 'a', 'l', 's', 'e'] cs then some (.bool false, cs.drop 5)
      else
        match parseNumber cs with
        | some (tok, r) => some (.num (String.mk tok), r)
        | none => none

/-- Array body after the opening bracket. -/
def parseArrRest : Nat → List Char → Option (Json × List Char)
  | 0, _ => none
  | fuel + 1, cs =>
    let cs := cs.dropWhile jsonWs
    match cs with
    | ']' :: r => some (.arr [], r)
    | _ =>
      match parseArrElems fuel cs with
      | some (elems, r) => some (.arr elems, r)
      | none => none

/-- One or more comma-separated array elements and the closing bracket. -/
def parseArrElems : Nat → List Char → Option (List Json × List Char)
  | 0, _ => none
  | fuel + 1, cs =>
    match parseValue fuel cs with
    | some (v, r) =>
      match r.dropWhile jsonWs with
      | ',' :: r2 =>
        match parseArrElems fuel r2 with
        | some (vs, r3) => some (v :: vs, r3)
        | none => none
      | ']' :: r2 => some ([v], r2)
      | _ => none
    | none => none

/-- Object body after the opening brace. -/
def parseObjRest : Nat → List Char → Option (Json × List Char)
  | 0, _ => none
  | fuel + 1, cs =>
    let cs := cs.dropWhile jsonWs
    match cs with
    | c :: r =>
      if c = rbrace then some (.obj [], r)
      else
        match parseObjFields fuel (c :: r) with
        | some (fs, r2) => some (.obj fs, r2)
        | none => none
    | [] => none

/-- One or more comma-separated object members and the closing brace. -/
def parseObjFields : Nat → List Char → Option (List (String × Json) × List Char)
  | 0, _ => none
  | fuel + 1, cs =>
    match cs.dropWhile jsonWs with
    | '"' :: rest =>
      match parseStringBody (rest.length + 1) rest with
      | some (key, r) =>
        match r.dropWhile jsonWs with
        | ':' :: r2 =>
          match parseValue fuel r2 with
          | some (v, r3) =>
            match r3.dropWhile jsonWs with
            | ',' :: r4 =>
              match parseObjFields fuel r4 with
              | some (fs, r5) => some ((String.mk key, v) :: fs, r5)
              | none => none
            | c :: r4 => if c = rbrace then some ([(String.mk key, v)], r4) else none
            | [] => none
          | none => none
        | _ => none
      | none => none
    | _ => none

end

/-- `JSON.parse`: a single JSON value surrounded only by whitespace;
anything else fails (returns `none` where JavaScript throws `SyntaxError`). -/
def parseJson (s : String) : Option Json :=
  match parseValue (2 * s.data.length + 4) s.data with
  | some (v, rest) => if (rest.dropWhile jsonWs).isEmpty then some v else none
  | none => none

/-! ## The response sanitizer (`cleanJSONResponse`, services file) -/

/-- The fence-stripping pass of `cleanJSONResponse`:
`text.replace(/```json/g, '').replace(/```/g, '')`. -/
def stripFences (text : String) : String :=
  replaceAllStr (replaceAllStr text "```json" "") "```" ""

/-- The fallback `text.match(/\x7b[\s\S]*\x7d/)`: the greedy regex matches from
the first left brace through the last right brace of the whole text, provided
that brace comes after it; otherwise there is no match. -/
def braceSpan (cs : List Char) : Option (List Char) :=
  let afterOpen := cs.dropWhile (fun c => c != lbrace)
  let rev := afterOpen.reverse.dropWhile (fun c => c != rbrace)
  if rev.isEmpty then none else some rev.reverse

/-- The pipe-delimited message thrown when both parse attempts fail. -/
def PARSING_ERROR_MSG : String :=
  "PARSING_ERROR|The neural core returned a corrupted data stream."

/-- `cleanJSONResponse`: strip code fences and trim, try a direct parse; on
failure extract the first-brace-to-last-brace span of the original text and
try again; if that also fails, throw the `PARSING_ERROR` message. -/
def cleanJSONResponse (text : String) : Except String Json :=
  match parseJson (trimStr (stripFences text)) with
  | some v => .ok v
  | none =>
    match braceSpan text.data with
    | some sub =>
      match parseJson (String.mk sub) with
      | some v => .ok v
      | none => .error PARSING_ERROR_MSG
    | none => .error PARSING_ERROR_MSG

/-! ## The error classifier (`handleGenAIError`, services/geminiService.ts) -/

/-- `handleGenAIError` as a pure classification: the input is `some message`
for a thrown `Error` and `none` for a non-`Error` value; the output is the
`(title, message)` pair whose pipe-joined form is thrown.  The branches,
matched substrings, titles and messages are those of the source. -/
def classifyError : Option String → String × String
  | none => ("SYSTEM ERROR", "An unexpected system malfunction occurred during processing.")
  | some emsg =>
    let msg := toLowerStr emsg
    if includesStr msg "api key" || includesStr msg "apikey" ||
        includesStr msg "401" || includesStr msg "auth" then
      ("AUTHENTICATION FAILED",
        if includesStr emsg "|" then secondPipeSegment emsg
        else "API Key invalid or missing. Check VITE_API_KEY settings.")
    else if includesStr msg "403" || includesStr msg "permission denied" then
      ("ACCESS DENIED",
        "Permission denied. Your API key may lack the required scope or the billing account might be inactive.")
    else if includesStr msg "429" || includesStr msg "quota" then
      ("QUOTA EXCEEDED", "Rate limit reached. Please standby before retrying operation.")
    else if includesStr msg "503" || includesStr msg "overloaded" then
      ("SERVER OVERLOAD", "Neural network capacity exceeded. Retrying in T-minus moments recommended.")
    else if includesStr msg "safety" || includesStr msg "blocked" then
      ("SAFETY PROTOCOL",
        "Content blocked by safety filters. Revise input parameters to comply with safety guidelines.")
    else if includesStr msg "fetch failed" || includesStr msg "network" then
      ("CONNECTION LOST", "Uplink to AI Core failed. Verify network integrity and connection status.")
    else if includesStr msg "candidate" then
      ("GENERATION ERROR",
        "Model failed to generate valid output for the given input parameters. The prompt may be too complex.")
    else if includesStr emsg "|" then
      (beforeCharStr '|' emsg, afterCharStr '|' emsg)
    else ("SYSTEM ERROR", emsg)

/-- The string `handleGenAIError` throws: `TITLE|message`. -/
def handleGenAIError (e : Option String) : String :=
  (classifyError e).1 ++ "|" ++ (classifyError e).2

/-- `parseError` (App.tsx): split a stored error string on its first pipe into
a title and a body; a string without a pipe becomes a `SYSTEM ERROR` body. -/
def parseError : Option String → Option (String × String)
  | none => none
  | some err =>
    if includesStr err "|" then some (beforeCharStr '|' err, afterCharStr '|' err)
    else some ("SYSTEM ERROR", err)

/-- The deauthorize test in `handleOptimize`'s catch block (App.tsx):
`errMsg.includes("Requested entity was not found") || errMsg.includes("AUTH FAILURE")`. -/
def deauthCheck (errMsg : String) : Bool :=
  includesStr errMsg "Requested entity was not found" || includesStr errMsg "AUTH FAILURE"

/-- The effect of `handleOptimize`'s catch block on the `isAuthenticated`
flag: cleared exactly when `deauthCheck` matches the error string. -/
def handleOptimizeAuthFlag (errMsg : String) (isAuthenticated : Bool) : Bool :=
  if deauthCheck errMsg then false else isAuthenticated

/-! ## Placeholder detection (`detectedVars`) and substitution (`replaceVariables`) -/

/-- The characters matched by the class `[A-Z0-9_]` under the `i` flag. -/
def isWordChar (c : Char) : Bool := c.isAlpha || c.isDigit || c == '_'

/-- Longest word-character prefix and the remainder. -/
def takeWord (cs : List Char) : List Char × List Char :=
  (cs.takeWhile isWordChar, cs.dropWhile isWordChar)

/-- After an opening delimiter: a nonempty word-character run followed by the
closing delimiter characters.  Because the closing characters are not word
characters, the greedy regex run succeeds exactly on this maximal run. -/
def matchClose (rest : List Char) (closing : List Char) : Option (List Char × List Char) :=
  let nr := takeWord rest
  if nr.1.isEmpty then none
  else if listPrefixB closing nr.2 then some (nr.1, nr.2.drop closing.length)
  else none

/-- A match of `/\[([A-Z0-9_]+)\]|\x7b\x7b([A-Z0-9_]+)\x7d\x7d|<([A-Z0-9_]+)>/i`
starting at the head of the list: the captured name and the remainder. -/
def matchMarkerAt (cs : List Char) : Option (List Char × List Char) :=
  match cs with
  | [] => none
  | c :: rest =>
    if c = '[' then matchClose rest [']']
    else if c = '<' then matchClose rest ['>']
    else if c = lbrace then
      match rest with
      | c2 :: rest2 => if c2 = lbrace then matchClose rest2 [rbrace, rbrace] else none
      | [] => none
    else none

/-- The global scan of `regex.exec` in a loop: collect the captured names of
all non-overlapping matches, resuming after each match and advancing one
character where no match starts. -/
def scanMarkers : Nat → List Char → List String
  | 0, _ => []
  | _ + 1, [] => []
  | fuel + 1, c :: cs =>
    match matchMarkerAt (c :: cs) with
    | some (name, rest) => String.mk name :: scanMarkers fuel rest
    | none => scanMarkers fuel cs

/-- All captured marker names of a text, in match order, with duplicates. -/
def scanNames (text : String) : List String := scanMarkers text.data.length text.data

/-- Insertion into a `Set` keeps the first occurrence of each name. -/
def dedupKeep (seen : List String) : List String → List String
  | [] => []
  | x :: xs => if x ∈ seen then dedupKeep seen xs else x :: dedupKeep (x :: seen) xs

/-- `detectedVars`: the deduplicated, first-occurrence-ordered captured names. -/
def detectedVars (text : String) : List String := dedupKeep [] (scanNames text)

/-- Case-insensitive character equality, as under the regex `i` flag. -/
def ciEq (a b : Char) : Bool := a.toLower == b.toLower

/-- Case-insensitive prefix test. -/
def ciPrefix : List Char → List Char → Bool
  | [], _ => true
  | _ :: _, [] => false
  | a :: as, b :: bs => ciEq a b && ciPrefix as bs

/-- One `result.replace(regex, val)` pass for a single key: every occurrence of
`[key]`, `\x7b\x7bkey\x7d\x7d` or `<key>` (name compared case-insensitively, as
under the `i` flag) is replaced by `val`; the replacement itself is not
rescanned. -/
def substMarkers (key : List Char) (val : List Char) : Nat → List Char → List Char
  | 0, cs => cs
  | _ + 1, [] => []
  | fuel + 1, c :: cs =>
    let t := c :: cs
    if ciPrefix ('[' :: key ++ [']']) t then
      val ++ substMarkers key val fuel (t.drop (key.length + 2))
    else if ciPrefix (lbrace :: lbrace :: key ++ [rbrace, rbrace]) t then
      val ++ substMarkers key val fuel (t.drop (key.length + 4))
    else if ciPrefix ('<' :: key ++ ['>']) t then
      val ++ substMarkers key val fuel (t.drop (key.length + 2))
    else c :: substMarkers key val fuel cs

/-- `replaceVariables` (part of the analysis view): for each entry of the
variable map in insertion order, replace its markers in the running text; an
entry whose value is the empty string (falsy) substitutes the
`[MISSING_<NAME>]` sentinel instead. -/
def replaceVariables (text : String) (vars : List (String × String)) : String :=
  vars.foldl
    (fun result kv =>
      let val := if kv.2 = "" then "[MISSING_" ++ kv.1 ++ "]" else kv.2
      String.mk (substMarkers kv.1.data val.data result.data.length result.data))
    text

/-- Property lookup on the insertion-ordered model of a plain JS object. -/
def lookupVar : List (String × String) → String → Option String
  | [], _ => none
  | (k, v) :: rest, key => if k = key then some v else lookupVar rest key

/-- The variables-sync effect: regenerate the variable map from the currently
detected names, keeping the previous value of each still-present key
(`next[v] = prev[v] || ''`). -/
def syncVariables (detected : List String) (prev : List (String × String)) :
    List (String × String) :=
  detected.map (fun v => (v, (lookupVar prev v).getD ""))

/-! ## The history store (App.tsx state and persistence) -/

/-- `GrammarIssue` (types file). -/
structure GrammarIssue where
  type : String
  original : String
  correction : String
  explanation : String
deriving DecidableEq

/-- `PromptAnalysis` (types file); `score` is a JS number, an integer here. -/
structure PromptAnalysis where
  originalText : String
  critique : String
  optimizedPrompt : String
  techniquesUsed : List String
  grammarIssues : List GrammarIssue
  score : Int
deriving DecidableEq

/-- `HistoryItem` (types file); `timestamp` is epoch milliseconds. -/
structure HistoryItem where
  id : String
  timestamp : Nat
  originalPreview : String
  optimizedPreview : String
  score : Int
  fullAnalysis : PromptAnalysis
deriving DecidableEq

/-- `addToHistory` / the history update in `handleOptimize`:
`setHistory(prev => [newItem, ...prev].slice(0, 20))`. -/
def addToHistory (item : HistoryItem) (prev : List HistoryItem) : List HistoryItem :=
  (item :: prev).take 20

/-- `deleteHistoryItem`: `history.filter(item => item.id !== id)`. -/
def deleteHistoryItem (ident : String) (h : List HistoryItem) : List HistoryItem :=
  h.filter (fun item => item.id != ident)

/-- `confirmPurge`: `setHistory([])` (and removal of the persisted record). -/
def confirmPurge (_h : List HistoryItem) : List HistoryItem := []

/-- The history states reachable from the initial empty state by the three
mutations the UI exposes. -/
inductive HistReachable : List HistoryItem → Prop where
  | init : HistReachable []
  | append (item : HistoryItem) (h : List HistoryItem) :
      HistReachable h → HistReachable (addToHistory item h)
  | remove (ident : String) (h : List HistoryItem) :
      HistReachable h → HistReachable (deleteHistoryItem ident h)
  | purge (h : List HistoryItem) : HistReachable h → HistReachable (confirmPurge h)

/-- A pairwise-distinct test item: the `i`-th optimization run. -/
def mkItem (i : Nat) : HistoryItem where
  id := toString i
  timestamp := i
  originalPreview := ""
  optimizedPreview := ""
  score := 0
  fullAnalysis :=
    { originalText := "", critique := "", optimizedPrompt := "", techniquesUsed := []
      grammarIssues := [], score := 0 }

/-- The state after appending items `0,…,20` (21 items) one at a time to the
empty history. -/
def append21 : List HistoryItem :=
  (List.range 21).foldl (fun h i => addToHistory (mkItem i) h) []

/-- The history-load effect on startup: `localStorage.getItem` yields `none`
or a string; a falsy (empty) or unparseable string leaves the initial empty
state, a parseable one becomes the state verbatim (the parse result is used
untyped, so the state is modelled as a JSON value). -/
def loadHistoryState (saved : Option String) : Json :=
  match saved with
  | none => Json.arr []
  | some s =>
    if s = "" then Json.arr []
    else
      match parseJson s with
      | some v => v
      | none => Json.arr []

/-- A string with no pipe character, the shape of every classifier title. -/
def pipeFree (s : String) : Bool := s.data.all (fun x => x != '|')

/-! ## Helper lemmas -/

theorem data_mk (l : List Char) : (String.mk l).data = l := rfl

theorem mk_data (s : String) : String.mk s.data = s := rfl

theorem data_append (a b : String) : (a ++ b).data = a.data ++ b.data := rfl

theorem takeWhile_append_of_all {p : Char → Bool} (l1 l2 : List Char)
    (h : ∀ a ∈ l1, p a = true) :
    (l1 ++ l2).takeWhile p = l1 ++ l2.takeWhile p := by
  induction l1 with
  | nil => simp
  | cons a l ih =>
    simp [List.takeWhile_cons, h a (by simp), ih (fun x hx => h x (by simp [hx]))]

theorem dropWhile_append_of_all {p : Char → Bool} (l1 l2 : List Char)
    (h : ∀ a ∈ l1, p a = true) :
    (l1 ++ l2).dropWhile p = l2.dropWhile p := by
  induction l1 with
  | nil => simp
  | cons a l ih =>
    simp only [List.cons_append, List.dropWhile_cons, h a (by simp)]
    exact ih (fun x hx => h x (by simp [hx]))

theorem substrB_of_mem (c : Char) (l : List Char) (h : c ∈ l) :
    substrB [c] l = true := by
  induction l with
  | nil => simp at h
  | cons x xs ih =>
    rcases List.mem_cons.mp h with h1 | h2
    · subst h1
      simp [substrB, listPrefixB]
    · simp [substrB, ih h2]

theorem pipeFree_beforeChar (s : String) : pipeFree (beforeCharStr '|' s) = true := by
  simp only [pipeFree, beforeCharStr, data_mk, List.all_eq_true]
  intro x hx
  exact List.mem_takeWhile_imp (p := fun y => y != '|') hx

theorem parseError_on_append (t m : String) (h : pipeFree t = true) :
    parseError (some (t ++ "|" ++ m)) = some (t, m) := by
  have hall : ∀ a ∈ t.data, (a != '|') = true := by
    intro a ha
    exact (List.all_eq_true.mp h) a ha
  have hdata : (t ++ "|" ++ m).data = t.data ++ '|' :: m.data := by
    rw [data_append, data_append]
    simp [String.data]
  have hmem : '|' ∈ (t ++ "|" ++ m).data := by
    rw [hdata]
    simp
  have hinc : includesStr (t ++ "|" ++ m) "|" = true :=
    substrB_of_mem '|' _ hmem
  have hbefore : beforeCharStr '|' (t ++ "|" ++ m) = t := by
    unfold beforeCharStr
    rw [hdata, takeWhile_append_of_all _ _ hall]
    simp [List.takeWhile_cons, mk_data]
  have hafter : afterCharStr '|' (t ++ "|" ++ m) = m := by
    unfold afterCharStr
    rw [hdata, dropWhile_append_of_all _ _ hall]
    simp [List.dropWhile_cons, mk_data]
  simp [parseError, hinc, hbefore, hafter]

theorem classifyError_title_pipeFree (e : Option String) :
    pipeFree (classifyError e).1 = true := by
  match e with
  | none => decide
  | some emsg =>
    simp only [classifyError]
    split_ifs <;> first
      | decide
      | exact pipeFree_beforeChar emsg
      | exact (by decide : pipeFree "AUTHENTICATION FAILED" = true)

theorem matchMarkerAt_bracketA (t : List Char) :
    matchMarkerAt ('[' :: 'A' :: ']' :: t) = some (['A'], t) := by
  have h1 : isWordChar 'A' = true := by decide
  have h2 : isWordChar ']' = false := by decide
  simp [matchMarkerAt, matchClose, takeWord, List.takeWhile_cons, List.dropWhile_cons,
    h1, h2, listPrefixB]

theorem listPrefixB_bracketA {cs : List Char}
    (h : listPrefixB ['[', 'A', ']'] cs = true) :
    ∃ t, cs = '[' :: 'A' :: ']' :: t := by
  match cs with
  | [] => simp [listPrefixB] at h
  | [c1] => simp [listPrefixB] at h
  | [c1, c2] => simp [listPrefixB] at h
  | c1 :: c2 :: c3 :: t =>
    simp only [listPrefixB, Bool.and_eq_true, beq_iff_eq] at h
    obtain ⟨h1, h2, h3, -⟩ := h
    subst h1; subst h2; subst h3
    exact ⟨t, rfl⟩

theorem scanMarkers_ne_nil (fuel : Nat) :
    ∀ cs : List Char, cs.length ≤ fuel → substrB ['[', 'A', ']'] cs = true →
      scanMarkers fuel cs ≠ [] := by
  induction fuel with
  | zero =>
    intro cs hlen hsub
    have : cs = [] := List.length_eq_zero.mp (Nat.le_zero.mp hlen)
    subst this
    simp [substrB] at hsub
  | succ fuel ih =>
    intro cs hlen hsub
    match cs with
    | [] => simp [substrB] at hsub
    | c :: cs' =>
      cases hm : matchMarkerAt (c :: cs') with
      | some p => simp [scanMarkers, hm]
      | none =>
        have hsub' : substrB ['[', 'A', ']'] cs' = true := by
          unfold substrB at hsub
          rcases Bool.or_eq_true_iff.mp hsub with hpre | hrest
          · exfalso
            obtain ⟨t, ht⟩ := listPrefixB_bracketA hpre
            rw [ht, matchMarkerAt_bracketA] at hm
            exact Option.noConfusion hm
          · exact hrest
        have hlen' : cs'.length ≤ fuel := by
          simpa using Nat.le_of_succ_le_succ (by simpa using hlen)
        simpa [scanMarkers, hm] using ih cs' hlen' hsub'

theorem dedupKeep_shadowed (s : String) :
    ∀ l, (∀ x ∈ l, x = s) → dedupKeep [s] l = [] := by
  intro l
  induction l with
  | nil => simp [dedupKeep]
  | cons a l ih =>
    intro h
    have ha : a = s := h a (by simp)
    subst ha
    simp only [dedupKeep, List.mem_singleton, if_pos rfl]
    exact ih (fun x hx => h x (by simp [hx]))

theorem dedupKeep_all_eq (s : String) (l : List String) (hne : l ≠ [])
    (hall : ∀ x ∈ l, x = s) : dedupKeep [] l = [s] := by
  match l with
  | [] => exact absurd rfl hne
  | a :: l =>
    have ha : a = s := hall a (by simp)
    subst ha
    simp only [dedupKeep, List.not_mem_nil, if_neg (fun h => h)]
    rw [dedupKeep_shadowed a l (fun x hx => hall x (by simp [hx]))]

theorem lookupVar_map_self (f : String → String) (l : List String) (key : String) :
    lookupVar (l.map fun v => (v, f v)) key
      = if key ∈ l then some (f key) else none := by
  induction l with
  | nil => simp [lookupVar]
  | cons a l ih =>
    simp only [List.map_cons, lookupVar]
    by_cases h : a = key
    · subst h
      simp
    · rw [if_neg h, ih]
      by_cases hk : key ∈ l
      · rw [if_pos hk, if_pos (List.mem_cons_of_mem a hk)]
      · have hnotc : key ∉ a :: l := by
          intro hmem
          rcases List.mem_cons.mp hmem with h1 | h2
          · exact h h1.symm
          · exact hk h2
        rw [if_neg hk, if_neg hnotc]

/-! ## The claims -/

/-- Claim C1: the response sanitizer first strips the code-fence marker
substrings and trims whitespace, then attempts a direct JSON parse; on failure
it extracts the span from the first left brace through the last right brace of
the text and parses that; if that also fails it fails with the
`PARSING_ERROR` message.  In particular the prose-wrapped object parses via
the brace-span fallback and a non-JSON text fails with `PARSING_ERROR`. -/
theorem cleanJSONResponse_spec :
    (∀ text v, parseJson (trimStr (stripFences text)) = some v →
      cleanJSONResponse text = .ok v)
    ∧ (∀ text sub v, parseJson (trimStr (stripFences text)) = none →
        braceSpan text.data = some sub → parseJson (String.mk sub) = some v →
        cleanJSONResponse text = .ok v)
    ∧ (∀ text, parseJson (trimStr (stripFences text)) = none →
        (∀ sub, braceSpan text.data = some sub → parseJson (String.mk sub) = none) →
        cleanJSONResponse text = .error PARSING_ERROR_MSG)
    ∧ cleanJSONResponse "Sure! \x7b\"score\":10\x7d Hope that helps."
        = .ok (Json.obj [("score", Json.num "10")])
    ∧ cleanJSONResponse "not json at all" = .error PARSING_ERROR_MSG := by
  refine ⟨?_, ?_, ?_, rfl, rfl⟩
  · intro text v h
    simp [cleanJSONResponse, h]
  · intro text sub v h1 h2 h3
    simp [cleanJSONResponse, h1, h2, h3]
  · intro text h1 h2
    cases hb : braceSpan text.data with
    | none => simp [cleanJSONResponse, h1, hb]
    | some sub => simp [cleanJSONResponse, h1, hb, h2 sub hb]

/-- Witness for C1: a fenced JSON object goes through the direct-parse path. -/
theorem cleanJSONResponse_spec_witness :
    parseJson (trimStr (stripFences "```json\n\x7b\"score\":10\x7d\n```"))
        = some (Json.obj [("score", Json.num "10")])
    ∧ cleanJSONResponse "```json\n\x7b\"score\":10\x7d\n```"
        = .ok (Json.obj [("score", Json.num "10")]) :=
  ⟨rfl, cleanJSONResponse_spec.1 _ _ rfl⟩

/-- Claim C2: the error classifier always throws a single `TITLE|message`
string; the title never contains a pipe, so splitting the thrown string on its
first pipe recovers exactly the classified `(title, message)` pair and any
further pipes stay in the body; classification proceeds by case-insensitive
substring matching in source order.  Classifying "Error: 429 quota exceeded"
yields the quota-exceeded title (literally `"QUOTA EXCEEDED"` in this code). -/
theorem handleGenAIError_pipe_contract :
    (∀ e, handleGenAIError e = (classifyError e).1 ++ "|" ++ (classifyError e).2)
    ∧ (∀ e, pipeFree (classifyError e).1 = true)
    ∧ (∀ e, parseError (some (handleGenAIError e)) = some (classifyError e))
    ∧ (classifyError (some "Error: 429 quota exceeded")).1 = "QUOTA EXCEEDED" := by
  refine ⟨fun e => rfl, classifyError_title_pipeFree, ?_, rfl⟩
  intro e
  rw [show handleGenAIError e = (classifyError e).1 ++ "|" ++ (classifyError e).2 from rfl,
    parseError_on_append _ _ (classifyError_title_pipeFree e)]

/-- Claim C5: substituting `TOPIC ↦ "cats"` and `AUDIENCE ↦ ""` into
`"Summarize [TOPIC] for [AUDIENCE]"` yields
`"Summarize cats for [MISSING_AUDIENCE]"`: a nonempty value replaces every
occurrence of its marker, an empty value substitutes the missing sentinel.  A
second instance shows one nonempty value replacing all three marker syntaxes. -/
theorem replaceVariables_end_to_end :
    replaceVariables "Summarize [TOPIC] for [AUDIENCE]" [("TOPIC", "cats"), ("AUDIENCE", "")]
        = "Summarize cats for [MISSING_AUDIENCE]"
    ∧ replaceVariables "[X] and \x7b\x7bX\x7d\x7d and <X>" [("X", "v")] = "v and v and v" :=
  ⟨rfl, rfl⟩

/-- Counterexample to claim C6: the substitutor iterates over the keys of the
variable map, so with the empty map a detected marker is NOT replaced by its
missing sentinel — the text comes back unchanged. -/
theorem replaceVariables_empty_map_counterexample :
    detectedVars "Hello [NAME]" = ["NAME"]
    ∧ replaceVariables "Hello [NAME]" [] = "Hello [NAME]"
    ∧ (("Hello [NAME]" : String) == "Hello [MISSING_NAME]") = false :=
  ⟨rfl, rfl, rfl⟩

/-- Claim C6 (amended): applying the substitutor with the empty variable map
returns every text unchanged; markers are rewritten (to the value, or to the
`[MISSING_<NAME>]` sentinel when the value is empty) only for names that are
keys of the map. -/
theorem replaceVariables_empty_map (T : String) : replaceVariables T [] = T := rfl

/-- Claim C7 (showing the code bug): classifying "401 invalid api key" yields
the authentication-failure title, but the thrown string
`"AUTHENTICATION FAILED|…"` does not contain either substring the caller's
deauthorize check looks for (`"Requested entity was not found"` /
`"AUTH FAILURE"`), so the `isAuthenticated` flag is NOT cleared. -/
theorem authFailure_does_not_clear_flag :
    (classifyError (some "401 invalid api key")).1 = "AUTHENTICATION FAILED"
    ∧ handleGenAIError (some "401 invalid api key")
        = "AUTHENTICATION FAILED|API Key invalid or missing. Check VITE_API_KEY settings."
    ∧ deauthCheck (handleGenAIError (some "401 invalid api key")) = false
    ∧ handleOptimizeAuthFlag (handleGenAIError (some "401 invalid api key")) true = true :=
  ⟨rfl, rfl, rfl, rfl⟩

/-- Claim C8: the history-load effect never propagates an error: a missing, a
falsy, or an unparseable persisted value all leave the empty initial history. -/
theorem loadHistory_corrupt_yields_empty :
    (∀ s, parseJson s = none → loadHistoryState (some s) = Json.arr [])
    ∧ loadHistoryState none = Json.arr []
    ∧ loadHistoryState (some "") = Json.arr [] := by
  refine ⟨?_, rfl, rfl⟩
  intro s h
  unfold loadHistoryState
  by_cases hs : s = ""
  · simp [hs]
  · simp [hs, h]

/-- Witness for C8: a concrete corrupted persisted string loads as empty. -/
theorem loadHistory_corrupt_witness :
    parseJson "\x7bcorrupted" = none
    ∧ loadHistoryState (some "\x7bcorrupted") = Json.arr [] :=
  ⟨rfl, loadHistory_corrupt_yields_empty.1 _ rfl⟩

/-- Claim C10: there is an input that is already valid JSON whose string field
contains a code-fence substring, and on which the sanitizer's result differs
from the direct parse: the fence strip rewrites the inside of the string
literal before parsing. -/
theorem cleanJSONResponse_alters_fenced_string_field :
    parseJson "\x7b\"a\":\"x```y\"\x7d" = some (Json.obj [("a", Json.str "x```y")])
    ∧ cleanJSONResponse "\x7b\"a\":\"x```y\"\x7d" = .ok (Json.obj [("a", Json.str "xy")])
    ∧ (("x```y" : String) == "xy") = false :=
  ⟨rfl, rfl, rfl⟩

/-- Claim C3: every history state reachable by append, remove and purge holds
at most 20 items; appending 21 distinct items one at a time to the empty
history leaves exactly 20, the 21st (most recently appended, `mkItem 20`)
first and the 1st (`mkItem 0`) evicted. -/
theorem history_capacity :
    (∀ h, HistReachable h → h.length ≤ 20)
    ∧ append21.length = 20
    ∧ append21 = (List.range' 1 20).reverse.map mkItem
    ∧ append21.head? = some (mkItem 20)
    ∧ append21.contains (mkItem 0) = false := by
  refine ⟨?_, by decide, by decide, by decide, by decide⟩
  intro h hr
  induction hr with
  | init => simp
  | append item h' _ _ =>
    simp only [addToHistory, List.length_take]
    omega
  | remove ident h' _ ih =>
    exact le_trans (List.length_filter_le _ _) ih
  | purge h' _ _ => simp [confirmPurge]

/-- Witness for C3: a singleton history is reachable and within capacity. -/
theorem history_capacity_witness :
    HistReachable (addToHistory (mkItem 0) [])
    ∧ (addToHistory (mkItem 0) []).length ≤ 20 :=
  ⟨HistReachable.append _ _ HistReachable.init,
   history_capacity.1 _ (HistReachable.append _ _ HistReachable.init)⟩

/-- Claim C4: in any text that contains the name `A` wrapped in all three
marker syntaxes and whose marker occurrences all carry the name `A`, the
detector returns exactly `["A"]`: the three syntaxes are one variable,
deduplicated in first-occurrence order. -/
theorem detectedVars_dedup_across_syntaxes (T : String)
    (h1 : includesStr T "[A]" = true)
    (_h2 : includesStr T "\x7b\x7bA\x7d\x7d" = true)
    (_h3 : includesStr T "<A>" = true)
    (hall : ∀ n ∈ scanNames T, n = "A") :
    detectedVars T = ["A"] := by
  unfold detectedVars
  exact dedupKeep_all_eq "A" (scanNames T)
    (scanMarkers_ne_nil T.data.length T.data (le_refl _) h1) hall

/-- Witness for C4: a text carrying `A` in all three syntaxes detects as
exactly `["A"]`. -/
theorem detectedVars_dedup_witness :
    detectedVars "[A] \x7b\x7bA\x7d\x7d <A>" = ["A"] :=
  detectedVars_dedup_across_syntaxes "[A] \x7b\x7bA\x7d\x7d <A>"
    (by decide) (by decide) (by decide) (by decide)

/-- Claim C9: after the variables-sync effect settles, the key list of the
variable map is exactly the detected-variables list of the current text; a
still-present key keeps its previous value, a newly detected key gets the
empty value, and a no-longer-detected key is dropped. -/
theorem syncVariables_invariant (text : String) (prev : List (String × String)) :
    ((syncVariables (detectedVars text) prev).map Prod.fst = detectedVars text)
    ∧ (∀ v val, v ∈ detectedVars text → lookupVar prev v = some val →
        lookupVar (syncVariables (detectedVars text) prev) v = some val)
    ∧ (∀ v, v ∈ detectedVars text → lookupVar prev v = none →
        lookupVar (syncVariables (detectedVars text) prev) v = some "")
    ∧ (∀ v, v ∉ detectedVars text →
        lookupVar (syncVariables (detectedVars text) prev) v = none) := by
  refine ⟨?_, ?_, ?_, ?_⟩
  · simp [syncVariables, List.map_map, Function.comp_def]
  · intro v val hv hl
    rw [syncVariables, lookupVar_map_self, if_pos hv, hl]
    rfl
  · intro v hv hl
    rw [syncVariables, lookupVar_map_self, if_pos hv, hl]
    rfl
  · intro v hv
    rw [syncVariables, lookupVar_map_self, if_neg hv]

/-- Witness for C9: with current text `"Use [TOPIC] daily"` and a previous map
holding `TOPIC ↦ "cats"` and a stale `OLD ↦ "x"`, the regenerated map keeps
the `TOPIC` value and drops `OLD`. -/
theorem syncVariables_invariant_witness :
    lookupVar (syncVariables (detectedVars "Use [TOPIC] daily")
        [("TOPIC", "cats"), ("OLD", "x")]) "TOPIC" = some "cats"
    ∧ lookupVar (syncVariables (detectedVars "Use [TOPIC] daily")
        [("TOPIC", "cats"), ("OLD", "x")]) "OLD" = none :=
  ⟨(syncVariables_invariant "Use [TOPIC] daily" [("TOPIC", "cats"), ("OLD", "x")]).2.1
      "TOPIC" "cats" (by decide) rfl,
   (syncVariables_invariant "Use [TOPIC] daily" [("TOPIC", "cats"), ("OLD", "x")]).2.2.2
      "OLD" (by decide)⟩

end PromptFactory
